import Mathlib

/-!
Verification development for the CodexEterna image change-detection engine.

The algorithmic engine (Normalizer, Similarity Scorer, Region Extractor,
Change-Level Classifier) is invoked by the frontend but its implementation is
not part of the checked-in sources; the definitions below marked
"Modelled from the spec" embed it faithfully from the specification's words
(spec.md sections 4.1 to 4.5, 6 and 7).  The display logic, field consumption
and classification buckets of `frontend/script.js` (function
`displayComparisonResults`) are transcribed directly from that source file.

Machine reals are embedded as rationals; machine integers as naturals.
-/

attribute [local semireducible] Rat.add Rat.sub Rat.mul Rat.inv

namespace CodexEterna

/-! Numeric helpers -/

/-- Clamp a rational into the interval [lo, hi]. -/
def clampQ (lo hi v : ℚ) : ℚ := max lo (min hi v)

/-- Rounding to one decimal place, as performed by `toFixed(1)` at reporting
time in `displayComparisonResults` (src/frontend/script.js line 272). -/
def roundTo1 (q : ℚ) : ℚ := (round (q * 10) : ℤ) / 10

/-! Image data model.  Modelled from the spec: an immutable 2D grid of pixels,
each pixel an ordered tuple of channel intensities; attributes width, height,
channel count (spec.md section 3). -/

/-- An input image: row-major grid of pixels, each a list of channel
intensities. -/
structure Image where
  width : Nat
  height : Nat
  channels : Nat
  data : List (List (List ℚ))
deriving DecidableEq, Repr

/-- Pixel access with a zero default outside the stored data. -/
def Image.pixel (img : Image) (x y : Nat) : List ℚ :=
  (img.data.getD y []).getD x []

/-- Modelled from the spec: an input is valid unless it is empty (zero width
or height) or has zero channels (spec.md section 4.1). -/
def Image.wellFormed (img : Image) : Prop :=
  img.width ≠ 0 ∧ img.height ≠ 0 ∧ img.channels ≠ 0

instance (img : Image) : Decidable img.wellFormed := by
  unfold Image.wellFormed; infer_instance

/-- A 2D grid of rationals (grayscale intensities or similarity scores),
row-major. -/
structure QGrid where
  width : Nat
  height : Nat
  vals : List ℚ
deriving DecidableEq, Repr

/-- Value at (x, y), default 0 outside the stored list. -/
def QGrid.get (g : QGrid) (x y : Nat) : ℚ := g.vals.getD (y * g.width + x) 0

/-- Row-major enumeration of all grid coordinates. -/
def gridList (w h : Nat) : List (Nat × Nat) :=
  (List.range h).flatMap (fun y => (List.range w).map (fun x => (x, y)))

/-! Normalizer.  Modelled from the spec: resize both images to the smaller
dimensions by area-averaging, convert to grayscale luminance, fail with
InvalidImageError on empty or zero-channel input (spec.md section 4.1). -/

/-- Linear (non-gamma) luminance combination of the first three channels. -/
def luminance (px : List ℚ) : ℚ :=
  299/1000 * px.getD 0 0 + 587/1000 * px.getD 1 0 + 114/1000 * px.getD 2 0

/-- Grayscale conversion of an image. -/
def toGray (img : Image) : QGrid :=
  { width := img.width, height := img.height,
    vals := (gridList img.width img.height).map
      (fun p => luminance (img.pixel p.1 p.2)) }

/-- Source index block covered by target index x when scaling length N down
to n: the half-open range from x*N/n to (x+1)*N/n, at least one index wide. -/
def srcBlock (N n x : Nat) : List Nat :=
  List.range' (x * N / n) (max ((x + 1) * N / n) (x * N / n + 1) - x * N / n)

/-- Area-averaging: mean of one channel over a block of source pixels. -/
def blockAvg (img : Image) (xs ys : List Nat) (c : Nat) : ℚ :=
  let samples := ys.flatMap (fun y => xs.map (fun x => (img.pixel x y).getD c 0))
  samples.sum / samples.length

/-- Modelled from the spec: resize to (w, h) by area-averaging; images already
at the target dimensions pass through unchanged (spec.md section 4.1). -/
def resizeImage (img : Image) (w h : Nat) : Image :=
  if img.width = w ∧ img.height = h then img else
  { width := w, height := h, channels := img.channels,
    data := (List.range h).map (fun y => (List.range w).map (fun x =>
      (List.range img.channels).map (fun c =>
        blockAvg img (srcBlock img.width w x) (srcBlock img.height h y) c))) }

/-- Error taxonomy.  Modelled from the spec: InvalidImageError,
DimensionMismatchError, ComputationError (spec.md section 7). -/
inductive CompareError where
  | invalidImage (msg : String)
  | dimensionMismatch (msg : String)
  | computation (msg : String)
deriving DecidableEq, Repr

/-- Modelled from the spec: `normalize(imageA, imageB) -> (normA, normB)`.
Validation happens first, before any computation; both images are then
brought to the common minimum dimensions and converted to grayscale
(spec.md section 4.1). -/
def normalize (a b : Image) : Except CompareError (QGrid × QGrid) :=
  if ¬ a.wellFormed ∨ ¬ b.wellFormed then
    .error (.invalidImage "empty or malformed input image")
  else
    let w := min a.width b.width
    let h := min a.height b.height
    .ok (toGray (resizeImage a w h), toGray (resizeImage b w h))

/-! Similarity Scorer.  Modelled from the spec: windowed structural
similarity combining luminance, contrast and structure correlation, per-window
score in [0,1]; edge pixels take the score of the nearest fully-covered
window (clamped); the scorer guards zero-variance window pairs explicitly,
scoring them 1.0 (spec.md sections 4.2 and 7). -/

/-- Fixed window side, within the spec's 7 to 11 range. -/
def windowSize : Nat := 7

/-- Origin of the window containing index x, clamped so that a full window
fits whenever the grid is at least windowSize long. -/
def windowOrigin (len x : Nat) : Nat := min x (len - windowSize)

/-- Coordinates of the window containing pixel (x, y), clipped to the grid. -/
def windowCoords (w h x y : Nat) : List (Nat × Nat) :=
  let ox := windowOrigin w x
  let oy := windowOrigin h y
  ((List.range windowSize).flatMap (fun dy =>
    (List.range windowSize).map (fun dx => (ox + dx, oy + dy)))).filter
    (fun p => p.1 < w ∧ p.2 < h)

/-- Grayscale values of the window containing pixel (x, y). -/
def windowVals (g : QGrid) (x y : Nat) : List ℚ :=
  (windowCoords g.width g.height x y).map (fun p => g.get p.1 p.2)

/-- Mean of a sample list (0 on the empty list). -/
def listMean (l : List ℚ) : ℚ := l.sum / l.length

/-- Variance of a sample list: mean of squared deviations. -/
def listVar (l : List ℚ) : ℚ :=
  ((l.map (fun v => (v - listMean l) ^ 2)).sum) / l.length

/-- Covariance of two sample lists of equal length. -/
def listCov (xs ys : List ℚ) : ℚ :=
  (((xs.zip ys).map (fun p => (p.1 - listMean xs) * (p.2 - listMean ys))).sum) /
    xs.length

/-- Luminance stabilizer (0.01 * 255)^2. -/
def ssimC1 : ℚ := 65025 / 10000

/-- Contrast stabilizer (0.03 * 255)^2. -/
def ssimC2 : ℚ := 585225 / 10000

/-- Raw structural similarity of two windows: luminance, contrast and
structure correlation combined and normalized. -/
def ssimRaw (xs ys : List ℚ) : ℚ :=
  ((2 * listMean xs * listMean ys + ssimC1) * (2 * listCov xs ys + ssimC2)) /
    ((listMean xs ^ 2 + listMean ys ^ 2 + ssimC1) *
      (listVar xs + listVar ys + ssimC2))

/-- Modelled from the spec: per-window score in [0,1]; a zero-variance to
zero-variance window pair is treated as perfectly similar (score 1.0) instead
of risking a degenerate division (spec.md section 7). -/
def windowScore (xs ys : List ℚ) : ℚ :=
  if listVar xs = 0 ∧ listVar ys = 0 then 1 else clampQ 0 1 (ssimRaw xs ys)

/-- Modelled from the spec: the full-resolution SimilarityMap assigns each
pixel the score of its containing window (spec.md section 4.2). -/
def simMap (ga gb : QGrid) : QGrid :=
  { width := ga.width, height := ga.height,
    vals := (gridList ga.width ga.height).map
      (fun p => windowScore (windowVals ga p.1 p.2) (windowVals gb p.1 p.2)) }

/-- Mean of all SimilarityMap values. -/
def mapMean (m : QGrid) : ℚ := listMean m.vals

/-- Modelled from the spec: similarityPercent is the mean of all
SimilarityMap values times 100, clamped to [0, 100] (spec.md section 4.2). -/
def similarityPercent (m : QGrid) : ℚ := clampQ 0 100 (mapMean m * 100)

/-! Region Extractor.  Modelled from the spec: threshold the SimilarityMap
into a ChangeMask (dissimilarity strictly above the threshold marks a pixel
changed), 8-connected component labeling, minimum-area floor, bounding boxes
with true pixel-area, ordering by area descending with (y, x) tie-break, and
top-N truncation of the report only (spec.md section 4.3). -/

/-- A pixel coordinate (x, y). -/
abbrev Pos := Nat × Nat

/-- All coordinates of a w-by-h grid as a finite set. -/
def gridPts (w h : Nat) : Finset Pos := Finset.range w ×ˢ Finset.range h

/-- 8-connectivity: distinct pixels whose coordinates differ by at most one
in each axis (diagonal neighbors count as connected). -/
def adjacent (p q : Pos) : Prop :=
  p ≠ q ∧ p.1 ≤ q.1 + 1 ∧ q.1 ≤ p.1 + 1 ∧ p.2 ≤ q.2 + 1 ∧ q.2 ≤ p.2 + 1

instance : DecidableRel adjacent := by
  unfold adjacent; infer_instance

/-- Modelled from the spec: a pixel is changed when its dissimilarity
1 - score strictly exceeds the threshold (spec.md section 4.3). -/
def changeMask (m : QGrid) (t : ℚ) : Finset Pos :=
  (gridPts m.width m.height).filter (fun p => t < 1 - m.get p.1 p.2)

/-- One expansion step of connected-component growth inside a mask: add every
masked pixel adjacent to the current set. -/
def growStep (mask : Finset Pos) (S : Finset Pos) : Finset Pos :=
  S ∪ mask.filter (fun q => ∃ r ∈ S, adjacent r q)

/-- The 8-connected component of seed p inside the mask, computed by an
iterative worklist expansion with enough steps to stabilize. -/
def component (mask : Finset Pos) (p : Pos) : Finset Pos :=
  (growStep mask)^[mask.card] {p}

/-- Masked pixels enumerated in deterministic row-major scan order. -/
def compSeeds (w h : Nat) (mask : Finset Pos) : List Pos :=
  (gridList w h).filter (fun p => p ∈ mask)

/-- All connected components of the mask, in scan order of their first
pixel, each listed once. -/
def compList (w h : Nat) (mask : Finset Pos) : List (Finset Pos) :=
  ((compSeeds w h mask).map (component mask)).dedup

/-- Modelled from the spec: components below the minimum-area floor are
discarded to suppress isolated noise pixels (spec.md section 4.3). -/
def survivorList (w h : Nat) (mask : Finset Pos) (minArea : Nat) :
    List (Finset Pos) :=
  (compList w h mask).filter (fun C => minArea ≤ C.card)

/-- A changed region: bounding box plus true pixel-area. -/
structure Region where
  x : Nat
  y : Nat
  width : Nat
  height : Nat
  area : Nat
deriving DecidableEq, Repr

/-- Smallest x coordinate occurring in a component (0 if empty). -/
def minX (C : Finset Pos) : Nat := (C.image Prod.fst).min.getD 0

/-- Largest x coordinate occurring in a component (0 if empty). -/
def maxX (C : Finset Pos) : Nat := (C.image Prod.fst).max.getD 0

/-- Smallest y coordinate occurring in a component (0 if empty). -/
def minY (C : Finset Pos) : Nat := (C.image Prod.snd).min.getD 0

/-- Largest y coordinate occurring in a component (0 if empty). -/
def maxY (C : Finset Pos) : Nat := (C.image Prod.snd).max.getD 0

/-- Bounding box and true pixel-area (count of masked pixels inside the box)
of a component. -/
def regionOfComp (C : Finset Pos) : Region :=
  { x := minX C, y := minY C,
    width := maxX C + 1 - minX C, height := maxY C + 1 - minY C,
    area := C.card }

/-- Report order: area descending, ties by y ascending then x ascending. -/
def regionLE (r s : Region) : Prop :=
  s.area < r.area ∨ (s.area = r.area ∧ (r.y < s.y ∨ (r.y = s.y ∧ r.x ≤ s.x)))

instance : DecidableRel regionLE := by
  unfold regionLE; infer_instance

/-- Output of the Region Extractor: the full ChangeMask, the ranked and
truncated region report, and the untruncated totals. -/
structure ExtractResult where
  mask : Finset Pos
  regions : List Region
  totalChangedArea : Nat
  numRegions : Nat

/-- Modelled from the spec:
`extractRegions(SimilarityMap, threshold) -> (ChangeMask, regions)`, with the
tunable minimum-area floor and top-N also passed explicitly; the report keeps
at most topN regions while the ChangeMask and the totals remain unfiltered
(spec.md sections 4.3 and 6). -/
def extractRegions (m : QGrid) (t : ℚ) (minArea topN : Nat) : ExtractResult :=
  let mask := changeMask m t
  let surv := survivorList m.width m.height mask minArea
  { mask := mask,
    regions := ((surv.map regionOfComp).insertionSort regionLE).take topN,
    totalChangedArea := (surv.map Finset.card).sum,
    numRegions := surv.length }

/-- Default changed-pixel threshold: dissimilarity above 0.3. -/
def defaultThreshold : ℚ := 3 / 10

/-- Default minimum-area floor: a handful of pixels. -/
def defaultMinArea : Nat := 5

/-- Default report truncation. -/
def defaultTopN : Nat := 10

/-! Change-Level Classifier and report assembly. -/

/-- Modelled from the spec: pure classifier from similarityPercent to the
categorical level, thresholds inclusive on the lower bound
(spec.md section 4.4). -/
def classifyChangeLevel (p : ℚ) : String :=
  if p < 30 then "critical"
  else if p < 60 then "high"
  else if p < 85 then "medium"
  else "low"

/-- Modelled from the spec: the caller-facing assessment word attached to
each level (spec.md section 4.4). -/
def assessmentOf (p : ℚ) : String :=
  if p < 30 then "major"
  else if p < 60 then "significant"
  else if p < 85 then "moderate"
  else "minor"

/-- Modelled from the spec: the DiffImage renderer maps each SimilarityMap
value to a heatmap intensity (high dissimilarity bright), with no
thresholding; same dimensions as the map (spec.md section 4.5). -/
def renderDiff (m : QGrid) : List ℚ := m.vals.map (fun v => 1 - v)

/-- The comparison report, with the field names the frontend consumes in
`displayComparisonResults` (src/frontend/script.js lines 256-319). -/
structure ComparisonReport where
  similarity_percent : ℚ
  assessment : String
  change_level : String
  num_changes : Nat
  total_changed_area : Nat
  diff_image : List ℚ
  changes : List Region
deriving DecidableEq, Repr

/-- Modelled from the spec: the single synchronous comparison operation —
validate, normalize, score, extract regions, classify and assemble the
report; it either fully succeeds with a complete report or fails with a
tagged error (spec.md sections 6 and 7). -/
def compareImages (a b : Image) (t : ℚ) (minArea topN : Nat) :
    Except CompareError ComparisonReport :=
  match normalize a b with
  | .error e => .error e
  | .ok (ga, gb) =>
    let m := simMap ga gb
    let p := similarityPercent m
    let ex := extractRegions m t minArea topN
    .ok { similarity_percent := p,
          assessment := assessmentOf p,
          change_level := classifyChangeLevel p,
          num_changes := ex.numRegions,
          total_changed_area := ex.totalChangedArea,
          diff_image := renderDiff m,
          changes := ex.regions }

/-! Frontend display logic, transcribed from `displayComparisonResults`
(src/frontend/script.js). -/

/-- The four "What This Means" interpretation blocks of
src/frontend/script.js lines 328-352. -/
inductive Interp where
  | major
  | significant
  | moderate
  | minor
deriving DecidableEq, Repr

/-- Interpretation bucket chosen from the similarity percent alone, cutting
at 30, 60 and 85 exactly as the if/else-if chain at
src/frontend/script.js lines 328-352. -/
def interpretationOf (p : ℚ) : Interp :=
  if p < 30 then .major
  else if p < 60 then .significant
  else if p < 85 then .moderate
  else .minor

/-- The "What This Means" block rendered for a report; the source reads only
`data.similarity_percent` there (src/frontend/script.js line 328). -/
def interpretationBlock (data : ComparisonReport) : Interp :=
  interpretationOf data.similarity_percent

/-- CSS color class for the score, from src/frontend/script.js lines
259-265: default high, critical and high collapse to low, medium stays
medium. -/
def scoreClassOf (data : ComparisonReport) : String :=
  if data.change_level = "critical" ∨ data.change_level = "high" then "low"
  else if data.change_level = "medium" then "medium"
  else "high"

/-- Score shown to the user: `toFixed(1)` of the raw percent
(src/frontend/script.js line 272). -/
def displayedScore (data : ComparisonReport) : ℚ :=
  roundTo1 data.similarity_percent

/-- Report fields the frontend display code reads off the payload, in order
of first access (src/frontend/script.js lines 256-324). -/
def consumedReportFields : List String :=
  ["similarity_percent", "assessment", "change_level", "num_changes",
   "total_changed_area", "diff_image", "changes"]

/-- Region fields the frontend reads from every entry of `changes`
(src/frontend/script.js lines 307-315). -/
def consumedRegionFields : List String :=
  ["x", "y", "width", "height", "area"]

/-- The field list the specification's interface section names for the
serialized report (spec.md section 6). -/
def specReportFields : List String :=
  ["similarityPercent", "changeLevel", "diffImage", "regions",
   "totalChangedArea"]

/-- The solid 100-by-100 gray test image of Scenario A. -/
def solid100 : Image :=
  { width := 100, height := 100, channels := 3,
    data := List.replicate 100 (List.replicate 100 [128, 128, 128]) }

/-- A concrete six-pixel SimilarityMap at one half everywhere. -/
def sampleMap : QGrid :=
  { width := 3, height := 2, vals := [1/2, 1/2, 1/2, 1/2, 1/2, 1/2] }

/-- A concrete three-pixel row whose middle pixel is slightly less
dissimilar than its neighbors. -/
def splitMap : QGrid :=
  { width := 3, height := 1, vals := [1/2, 13/20, 1/2] }

/-- The changed pixels whose component survives the minimum-area floor;
their count equals the sum of surviving region areas. -/
def contrib (mask : Finset Pos) (minArea : Nat) : Finset Pos :=
  mask.filter (fun p => minArea ≤ (component mask p).card)

/-- Union of a list of pixel sets. -/
def unionList (L : List (Finset Pos)) : Finset Pos :=
  L.foldr (· ∪ ·) ∅

/-! Claim C1: change-level classification thresholds. -/

/-- C1: for every similarityPercent in [0,100] the classifier returns
critical on [0,30), high on [30,60), medium on [60,85) and low on [85,100],
each threshold inclusive on the lower bound, as a pure deterministic function
of the score; the frontend interpretation chain of
src/frontend/script.js lines 328-352 cuts at the same thresholds. -/
theorem claim_C1_change_level_thresholds (p : ℚ) (hlo : 0 ≤ p) (hhi : p ≤ 100) :
    (classifyChangeLevel p = "critical" ↔ p < 30) ∧
    (classifyChangeLevel p = "high" ↔ 30 ≤ p ∧ p < 60) ∧
    (classifyChangeLevel p = "medium" ↔ 60 ≤ p ∧ p < 85) ∧
    (classifyChangeLevel p = "low" ↔ 85 ≤ p) ∧
    classifyChangeLevel 30 = "high" ∧
    classifyChangeLevel 60 = "medium" ∧
    classifyChangeLevel 85 = "low" ∧
    (interpretationOf p = .major ↔ classifyChangeLevel p = "critical") ∧
    (interpretationOf p = .significant ↔ classifyChangeLevel p = "high") ∧
    (interpretationOf p = .moderate ↔ classifyChangeLevel p = "medium") ∧
    (interpretationOf p = .minor ↔ classifyChangeLevel p = "low") := by
  refine ⟨?_, ?_, ?_, ?_, by decide, by decide, by decide, ?_, ?_, ?_, ?_⟩ <;>
    (simp only [classifyChangeLevel, interpretationOf]
     split_ifs with h1 h2 h3 <;> simp_all <;>
       (try constructor) <;> intros <;> linarith)

/-- Witness for C1 at the boundary score 30. -/
theorem claim_C1_change_level_thresholds_witness :
    classifyChangeLevel 30 = "high" :=
  ((claim_C1_change_level_thresholds 30 (by norm_num) (by norm_num)).2.1).mpr
    ⟨by norm_num, by norm_num⟩

/-! Claim C10: the rendered interpretation depends only on the similarity
score. -/

/-- C10: in displayComparisonResults the "What This Means" block is a
function of similarity_percent alone, cutting strictly at 30, 60 and 85 so
the boundary 85.0 falls in the higher-similarity bucket; two reports with
equal similarity_percent but different change_level get identical
interpretation text; change_level only drives the score CSS class, where
critical and high collapse to one class and any other tag, recognized or
not, falls through to the default class. -/
theorem claim_C10_interpretation_depends_on_score
    (r1 r2 : ComparisonReport)
    (h : r1.similarity_percent = r2.similarity_percent) :
    interpretationBlock r1 = interpretationBlock r2 ∧
    (∀ r : ComparisonReport, r.similarity_percent = 85 →
      interpretationBlock r = .minor) ∧
    scoreClassOf { r1 with change_level := "critical" } =
      scoreClassOf { r1 with change_level := "high" } ∧
    (∀ s : String, s ≠ "critical" → s ≠ "high" → s ≠ "medium" →
      scoreClassOf { r1 with change_level := s } = "high") := by
  refine ⟨by simp [interpretationBlock, h], ?_, by simp [scoreClassOf], ?_⟩
  · intro r hr
    simp [interpretationBlock, hr, interpretationOf]
    norm_num
  · intro s h1 h2 h3
    simp [scoreClassOf, h1, h2, h3]

/-- Witness for C10: two concrete reports sharing the score 50 but carrying
different change_level tags render the same interpretation block. -/
theorem claim_C10_interpretation_depends_on_score_witness :
    interpretationBlock
      { similarity_percent := 50, assessment := "significant",
        change_level := "high", num_changes := 1, total_changed_area := 9,
        diff_image := [], changes := [] } =
    interpretationBlock
      { similarity_percent := 50, assessment := "minor",
        change_level := "low", num_changes := 0, total_changed_area := 0,
        diff_image := [], changes := [] } :=
  (claim_C10_interpretation_depends_on_score
    { similarity_percent := 50, assessment := "significant",
      change_level := "high", num_changes := 1, total_changed_area := 9,
      diff_image := [], changes := [] }
    { similarity_percent := 50, assessment := "minor",
      change_level := "low", num_changes := 0, total_changed_area := 0,
      diff_image := [], changes := [] } rfl).1

/-! Claim C8: fail-fast atomicity of input validation. -/

/-- C8: whenever either image is empty (zero width or height) or has zero
channels, the comparison fails with InvalidImageError before any computation
and no report of any kind is produced; in general a comparison either fully
succeeds with a complete report or fails explicitly with a tagged error. -/
theorem claim_C8_fail_fast (a b : Image) (t : ℚ) (minArea topN : Nat)
    (h : a.width = 0 ∨ a.height = 0 ∨ a.channels = 0 ∨
         b.width = 0 ∨ b.height = 0 ∨ b.channels = 0) :
    compareImages a b t minArea topN =
      .error (.invalidImage "empty or malformed input image") ∧
    (∀ r : ComparisonReport, compareImages a b t minArea topN ≠ .ok r) ∧
    (∀ a2 b2 : Image, ∀ t2 : ℚ, ∀ mA n : Nat,
      (∃ r, compareImages a2 b2 t2 mA n = .ok r) ∨
      (∃ e, compareImages a2 b2 t2 mA n = .error e)) := by
  have hnv : ¬ a.wellFormed ∨ ¬ b.wellFormed := by
    unfold Image.wellFormed
    tauto
  have hmain : compareImages a b t minArea topN =
      .error (.invalidImage "empty or malformed input image") := by
    unfold compareImages normalize
    rw [if_pos hnv]
  refine ⟨hmain, fun r hr => by rw [hmain] at hr; exact Except.noConfusion hr, ?_⟩
  intro a2 b2 t2 mA n
  cases hc : compareImages a2 b2 t2 mA n with
  | ok r => exact .inl ⟨r, rfl⟩
  | error e => exact .inr ⟨e, rfl⟩

/-- Witness for C8: a zero-by-zero image is rejected with InvalidImageError. -/
theorem claim_C8_fail_fast_witness :
    compareImages { width := 0, height := 0, channels := 0, data := [] }
        { width := 1, height := 1, channels := 3, data := [[[0, 0, 0]]] }
        defaultThreshold defaultMinArea defaultTopN =
      .error (.invalidImage "empty or malformed input image") :=
  (claim_C8_fail_fast _ _ _ _ _ (.inl rfl)).1

/-! Claim C5 infrastructure: the report order is a total preorder, so the
sort produces a sorted list. -/

instance : IsTotal Region regionLE := by
  constructor
  intro a b
  unfold regionLE
  omega

instance : IsTrans Region regionLE := by
  constructor
  intro a b c
  unfold regionLE
  omega

/-- The reported region list of any extraction is sorted by area descending
with (y, x) tie-break. -/
theorem sorted_extract_regions (m : QGrid) (t : ℚ) (mA n : Nat) :
    List.Sorted regionLE (extractRegions m t mA n).regions :=
  List.Pairwise.sublist (List.take_sublist _ _)
    (List.sorted_insertionSort regionLE _)

/-! Claim C2: shape of the serialized report. -/

/-- C2 counterexample: the payload consumed by displayComparisonResults
(src/frontend/script.js lines 256-324) does not carry the field names the
claim lists — there is no similarityPercent, changeLevel or regions field;
instead snake_case names are used, the region list is called changes, and
the extra fields assessment and num_changes are present. -/
theorem claim_C2_counterexample :
    consumedReportFields ≠ specReportFields ∧
    "similarityPercent" ∉ consumedReportFields ∧
    "changeLevel" ∉ consumedReportFields ∧
    "regions" ∉ consumedReportFields ∧
    "assessment" ∈ consumedReportFields ∧
    "num_changes" ∈ consumedReportFields := by
  decide

/-- C2 amended: every successful comparison serializes the snake_case fields
similarity_percent (rational score), assessment and change_level (string
tags, the level always one of critical, high, medium, low), num_changes,
total_changed_area (integers), diff_image, and changes — an ordered list of
{x, y, width, height, area} integer records sorted by area descending —
exactly the fields the frontend consumes. -/
theorem claim_C2_report_shape (a b : Image) (t : ℚ) (mA n : Nat)
    (r : ComparisonReport) (h : compareImages a b t mA n = .ok r) :
    consumedReportFields =
      ["similarity_percent", "assessment", "change_level", "num_changes",
       "total_changed_area", "diff_image", "changes"] ∧
    consumedRegionFields = ["x", "y", "width", "height", "area"] ∧
    r.change_level ∈ ["critical", "high", "medium", "low"] ∧
    r.assessment ∈ ["major", "significant", "moderate", "minor"] ∧
    List.Sorted regionLE r.changes := by
  unfold compareImages at h
  cases hn : normalize a b with
  | error e => rw [hn] at h; exact Except.noConfusion h
  | ok g =>
    rw [hn] at h
    cases h
    refine ⟨rfl, rfl, ?_, ?_, sorted_extract_regions _ _ _ _⟩
    · unfold classifyChangeLevel; split_ifs <;> simp
    · unfold assessmentOf; split_ifs <;> simp

/-- Witness for C2 amended, at a concrete successful comparison. -/
theorem claim_C2_report_shape_witness :
    (compareImages { width := 1, height := 1, channels := 3, data := [[[0, 0, 0]]] }
        { width := 1, height := 1, channels := 3, data := [[[0, 0, 0]]] }
        defaultThreshold defaultMinArea defaultTopN =
      .ok { similarity_percent := 100, assessment := "minor",
            change_level := "low", num_changes := 0, total_changed_area := 0,
            diff_image := [0], changes := [] }) ∧
    "low" ∈ ["critical", "high", "medium", "low"] :=
  ⟨rfl, (claim_C2_report_shape
    { width := 1, height := 1, channels := 3, data := [[[0, 0, 0]]] }
    { width := 1, height := 1, channels := 3, data := [[[0, 0, 0]]] }
    defaultThreshold defaultMinArea defaultTopN
    { similarity_percent := 100, assessment := "minor",
      change_level := "low", num_changes := 0, total_changed_area := 0,
      diff_image := [0], changes := [] } rfl).2.2.1⟩

/-! Claim C9 infrastructure: per-window scores land in [0,1]. -/

/-- Clamping into the unit interval yields a value in the unit interval. -/
theorem clampQ_unit (v : ℚ) : 0 ≤ clampQ 0 1 v ∧ clampQ 0 1 v ≤ 1 :=
  ⟨le_max_left 0 _, max_le (by norm_num) (min_le_left 1 v)⟩

/-- Every per-window score is a well-defined value in [0,1]. -/
theorem windowScore_unit (xs ys : List ℚ) :
    0 ≤ windowScore xs ys ∧ windowScore xs ys ≤ 1 := by
  unfold windowScore
  split_ifs
  · norm_num
  · exact clampQ_unit _

/-- Every SimilarityMap value produced by the scorer lies in [0,1]. -/
theorem simMap_vals_unit (ga gb : QGrid) :
    ∀ v ∈ (simMap ga gb).vals, 0 ≤ v ∧ v ≤ 1 := by
  intro v hv
  unfold simMap at hv
  simp only [List.mem_map] at hv
  obtain ⟨p, -, rfl⟩ := hv
  exact windowScore_unit _ _

/-- C9: a zero-variance to zero-variance window pair scores exactly 1.0
instead of entering the structural-similarity division, and every per-window
score — hence every SimilarityMap value, including on degenerate all-zero
images — is a well-defined rational in [0,1]. -/
theorem claim_C9_zero_variance (xs ys : List ℚ)
    (hx : listVar xs = 0) (hy : listVar ys = 0) :
    windowScore xs ys = 1 ∧
    (∀ as bs : List ℚ, 0 ≤ windowScore as bs ∧ windowScore as bs ≤ 1) ∧
    (∀ ga gb : QGrid, ∀ v ∈ (simMap ga gb).vals, 0 ≤ v ∧ v ≤ 1) := by
  refine ⟨?_, fun as bs => windowScore_unit as bs,
    fun ga gb v hv => simMap_vals_unit ga gb v hv⟩
  unfold windowScore
  rw [if_pos ⟨hx, hy⟩]

/-- Witness for C9: the all-zero window paired with a constant window, both
of zero variance, scores 1.0. -/
theorem claim_C9_zero_variance_witness :
    windowScore [0, 0, 0] [5, 5] = 1 :=
  (claim_C9_zero_variance [0, 0, 0] [5, 5] (by decide) (by decide)).1

/-! Claim C6 infrastructure: the mean of unit-interval values is in the unit
interval, so the clamp of the percent is the identity. -/

/-- The mean of a list of values in [0,1] lies in [0,1]. -/
theorem listMean_unit (l : List ℚ) (h : ∀ v ∈ l, 0 ≤ v ∧ v ≤ 1) :
    0 ≤ listMean l ∧ listMean l ≤ 1 := by
  unfold listMean
  constructor
  · exact div_nonneg (List.sum_nonneg fun v hv => (h v hv).1) (by positivity)
  · rcases Nat.eq_zero_or_pos l.length with h0 | h0
    · rw [h0]
      simp
    · rw [div_le_one (by exact_mod_cast h0)]
      calc l.sum ≤ l.length • (1 : ℚ) :=
            List.sum_le_card_nsmul l 1 fun v hv => (h v hv).2
        _ = l.length := by simp

/-- Clamping is the identity on values already inside the interval. -/
theorem clampQ_eq_self (lo hi v : ℚ) (h1 : lo ≤ v) (h2 : v ≤ hi) :
    clampQ lo hi v = v := by
  unfold clampQ
  rw [min_eq_right h2, max_eq_right h1]

/-- C6: the scorer returns similarityPercent equal to the mean of all
SimilarityMap values times 100 — the clamp to [0,100] never changes it —
and rounding to one decimal happens only in the displayed score, while the
classifier, assessment and interpretation all consume the unrounded value. -/
theorem claim_C6_similarity_percent (ga gb : QGrid) :
    similarityPercent (simMap ga gb) =
      clampQ 0 100 (mapMean (simMap ga gb) * 100) ∧
    similarityPercent (simMap ga gb) = mapMean (simMap ga gb) * 100 ∧
    0 ≤ similarityPercent (simMap ga gb) ∧
    similarityPercent (simMap ga gb) ≤ 100 ∧
    (∀ r : ComparisonReport, displayedScore r = roundTo1 r.similarity_percent) ∧
    (∀ a b : Image, ∀ t : ℚ, ∀ mA n : Nat, ∀ r : ComparisonReport,
      compareImages a b t mA n = .ok r →
        r.change_level = classifyChangeLevel r.similarity_percent ∧
        r.assessment = assessmentOf r.similarity_percent ∧
        interpretationBlock r = interpretationOf r.similarity_percent) := by
  have hmean := listMean_unit (simMap ga gb).vals (simMap_vals_unit ga gb)
  have heq : similarityPercent (simMap ga gb) = mapMean (simMap ga gb) * 100 := by
    unfold similarityPercent
    exact clampQ_eq_self _ _ _ (by unfold mapMean; nlinarith [hmean.1])
      (by unfold mapMean; nlinarith [hmean.2])
  refine ⟨rfl, heq, ?_, ?_, fun r => rfl, ?_⟩
  · rw [heq]; unfold mapMean; nlinarith [hmean.1]
  · rw [heq]; unfold mapMean; nlinarith [hmean.2]
  · intro a b t mA n r h
    unfold compareImages at h
    cases hn : normalize a b with
    | error e => rw [hn] at h; exact Except.noConfusion h
    | ok g =>
      rw [hn] at h
      cases h
      exact ⟨rfl, rfl, rfl⟩

/-- Witness for C6 on a concrete one-pixel map and a concrete successful
comparison. -/
theorem claim_C6_similarity_percent_witness :
    similarityPercent (simMap { width := 1, height := 1, vals := [1/2] }
        { width := 1, height := 1, vals := [1/2] }) =
      mapMean (simMap { width := 1, height := 1, vals := [1/2] }
        { width := 1, height := 1, vals := [1/2] }) * 100 ∧
    (compareImages { width := 1, height := 1, channels := 3, data := [[[0, 0, 0]]] }
        { width := 1, height := 1, channels := 3, data := [[[0, 0, 0]]] }
        defaultThreshold defaultMinArea defaultTopN =
      .ok { similarity_percent := 100, assessment := "minor",
            change_level := "low", num_changes := 0, total_changed_area := 0,
            diff_image := [0], changes := [] }) ∧
    "low" = classifyChangeLevel 100 :=
  ⟨(claim_C6_similarity_percent _ _).2.1, rfl,
    ((claim_C6_similarity_percent
        { width := 1, height := 1, vals := [1/2] }
        { width := 1, height := 1, vals := [1/2] }).2.2.2.2.2
      { width := 1, height := 1, channels := 3, data := [[[0, 0, 0]]] }
      { width := 1, height := 1, channels := 3, data := [[[0, 0, 0]]] }
      defaultThreshold defaultMinArea defaultTopN
      { similarity_percent := 100, assessment := "minor",
        change_level := "low", num_changes := 0, total_changed_area := 0,
        diff_image := [0], changes := [] } rfl).1⟩

/-! Claim C4 infrastructure: comparing a grid with itself gives the all-ones
SimilarityMap, percent 100 and an empty ChangeMask. -/

/-- Zipping a list with itself and mapping is mapping the diagonal. -/
theorem zip_self_map (f : ℚ × ℚ → ℚ) (xs : List ℚ) :
    (xs.zip xs).map f = xs.map (fun x => f (x, x)) := by
  induction xs with
  | nil => rfl
  | cons x xs ih => simp [ih]

/-- Covariance of a list with itself is its variance. -/
theorem listCov_self (xs : List ℚ) : listCov xs xs = listVar xs := by
  unfold listCov listVar
  rw [zip_self_map]
  have hfun : (fun x : ℚ => ((x, x).1 - listMean xs) * ((x, x).2 - listMean xs)) =
      fun v : ℚ => (v - listMean xs) ^ 2 := by
    funext x
    ring
  rw [hfun]

/-- Variance is a mean of squares, hence nonnegative. -/
theorem listVar_nonneg (xs : List ℚ) : 0 ≤ listVar xs := by
  unfold listVar
  refine div_nonneg (List.sum_nonneg ?_) (by positivity)
  intro v hv
  simp only [List.mem_map] at hv
  obtain ⟨x, -, rfl⟩ := hv
  positivity

/-- Structural similarity of a window with itself is exactly 1. -/
theorem ssimRaw_self (xs : List ℚ) : ssimRaw xs xs = 1 := by
  unfold ssimRaw
  rw [listCov_self]
  have hx : listMean xs ^ 2 + listMean xs ^ 2 + ssimC1 =
      2 * listMean xs * listMean xs + ssimC1 := by ring
  have hv : listVar xs + listVar xs + ssimC2 = 2 * listVar xs + ssimC2 := by
    ring
  rw [hx, hv]
  have h1 : 0 < 2 * listMean xs * listMean xs + ssimC1 := by
    unfold ssimC1
    nlinarith [sq_nonneg (listMean xs)]
  have h2 : 0 < 2 * listVar xs + ssimC2 := by
    unfold ssimC2
    linarith [listVar_nonneg xs]
  exact div_self (ne_of_gt (mul_pos h1 h2))

/-- A window compared with itself scores 1, through either branch of the
zero-variance guard. -/
theorem windowScore_self (xs : List ℚ) : windowScore xs xs = 1 := by
  unfold windowScore
  split_ifs
  · rfl
  · rw [ssimRaw_self]
    unfold clampQ
    simp

/-- The grid enumeration has one entry per pixel. -/
theorem gridList_length (w h : Nat) : (gridList w h).length = w * h := by
  unfold gridList
  rw [List.length_flatMap]
  simp [Function.comp_def, mul_comm]

/-- The self-comparison SimilarityMap is all ones. -/
theorem simMap_self_vals (g : QGrid) :
    (simMap g g).vals = List.replicate (g.width * g.height) (1 : ℚ) := by
  show (gridList g.width g.height).map
      (fun p => windowScore (windowVals g p.1 p.2) (windowVals g p.1 p.2)) =
    List.replicate (g.width * g.height) (1 : ℚ)
  rw [List.map_congr_left (fun p _ => windowScore_self (windowVals g p.1 p.2))]
  rw [show (fun _ : Nat × Nat => (1:ℚ)) = Function.const (Nat × Nat) (1:ℚ) from rfl]
  rw [List.map_const, gridList_length]

/-- Row-major indices of grid points are in range. -/
theorem rowMajorIndex_lt (w h x y : Nat) (hx : x < w) (hy : y < h) :
    y * w + x < w * h :=
  calc y * w + x < y * w + w := Nat.add_lt_add_left hx _
    _ = (y + 1) * w := (Nat.succ_mul y w).symm
    _ ≤ h * w := Nat.mul_le_mul_right w hy
    _ = w * h := Nat.mul_comm h w

/-- The mean of the self-comparison SimilarityMap is 1 once the grid is
nonempty, so the reported percent is exactly 100. -/
theorem similarityPercent_self (g : QGrid) (hw : g.width ≠ 0)
    (hh : g.height ≠ 0) : similarityPercent (simMap g g) = 100 := by
  unfold similarityPercent mapMean listMean
  rw [simMap_self_vals]
  have hn : (0 : ℚ) < (g.width * g.height : Nat) := by
    have := Nat.mul_ne_zero hw hh
    positivity
  rw [List.sum_replicate, List.length_replicate]
  rw [nsmul_eq_mul, mul_one, div_self (ne_of_gt hn)]
  unfold clampQ
  norm_num

/-- On self-comparison no pixel exceeds the dissimilarity threshold: the
ChangeMask is empty for every nonnegative threshold. -/
theorem changeMask_simMap_self (g : QGrid) (t : ℚ) (ht : 0 ≤ t) :
    changeMask (simMap g g) t = ∅ := by
  unfold changeMask
  refine Finset.filter_false_of_mem ?_
  intro p hp
  unfold gridPts at hp
  rw [Finset.mem_product, Finset.mem_range, Finset.mem_range] at hp
  have hidx : p.2 * (simMap g g).width + p.1 < g.width * g.height := by
    have : (simMap g g).width = g.width := rfl
    rw [this]
    exact rowMajorIndex_lt _ _ _ _ hp.1 hp.2
  have hget : (simMap g g).get p.1 p.2 = 1 := by
    unfold QGrid.get
    rw [show (simMap g g).vals = List.replicate (g.width * g.height) (1 : ℚ)
      from simMap_self_vals g]
    rw [List.getD_eq_getElem?_getD, List.getElem?_replicate, if_pos hidx]
    rfl
  rw [hget]
  intro hcon
  norm_num at hcon
  linarith

/-- Extraction from an empty ChangeMask reports nothing. -/
theorem extractRegions_empty_mask (m : QGrid) (t : ℚ) (mA n : Nat)
    (h : changeMask m t = ∅) :
    (extractRegions m t mA n).regions = [] ∧
    (extractRegions m t mA n).totalChangedArea = 0 ∧
    (extractRegions m t mA n).numRegions = 0 := by
  have hseeds : compSeeds m.width m.height (changeMask m t) = [] := by
    rw [h]
    unfold compSeeds
    simp
  have hcomp : compList m.width m.height (changeMask m t) = [] := by
    unfold compList
    rw [hseeds]
    rfl
  have hsurv : survivorList m.width m.height (changeMask m t) mA = [] := by
    unfold survivorList
    rw [hcomp]
    rfl
  unfold extractRegions
  simp only [hsurv]
  simp

/-- Resizing targets the requested width. -/
theorem resizeImage_width (img : Image) (w h : Nat) :
    (resizeImage img w h).width = w := by
  unfold resizeImage
  split_ifs with hc
  · exact hc.1
  · rfl

/-- Resizing targets the requested height. -/
theorem resizeImage_height (img : Image) (w h : Nat) :
    (resizeImage img w h).height = h := by
  unfold resizeImage
  split_ifs with hc
  · exact hc.2
  · rfl

/-- The successful branch of the comparison pipeline, written out. -/
theorem compare_ok_eq (a b : Image) (t : ℚ) (mA n : Nat) (ga gb : QGrid)
    (hn : normalize a b = .ok (ga, gb)) :
    compareImages a b t mA n =
      .ok { similarity_percent := similarityPercent (simMap ga gb),
            assessment := assessmentOf (similarityPercent (simMap ga gb)),
            change_level := classifyChangeLevel (similarityPercent (simMap ga gb)),
            num_changes := (extractRegions (simMap ga gb) t mA n).numRegions,
            total_changed_area :=
              (extractRegions (simMap ga gb) t mA n).totalChangedArea,
            diff_image := renderDiff (simMap ga gb),
            changes := (extractRegions (simMap ga gb) t mA n).regions } := by
  unfold compareImages
  rw [hn]

/-- Comparing any well-formed image with itself succeeds with percent 100,
no changed regions, no changed area. -/
theorem identity_ok (a : Image) (h : a.wellFormed) :
    ∃ r : ComparisonReport,
      compareImages a a defaultThreshold defaultMinArea defaultTopN = .ok r ∧
      r.similarity_percent = 100 ∧ r.changes = [] ∧ r.num_changes = 0 ∧
      r.total_changed_area = 0 := by
  have hn : normalize a a =
      .ok (toGray (resizeImage a (min a.width a.width) (min a.height a.height)),
           toGray (resizeImage a (min a.width a.width) (min a.height a.height))) := by
    unfold normalize
    rw [if_neg (by tauto)]
  set ga := toGray (resizeImage a (min a.width a.width) (min a.height a.height))
    with hga
  have hgw : ga.width = a.width := by
    rw [hga]
    show (resizeImage a (min a.width a.width) (min a.height a.height)).width = a.width
    rw [resizeImage_width, Nat.min_self]
  have hgh : ga.height = a.height := by
    rw [hga]
    show (resizeImage a (min a.width a.width) (min a.height a.height)).height = a.height
    rw [resizeImage_height, Nat.min_self]
  have hmask : changeMask (simMap ga ga) defaultThreshold = ∅ :=
    changeMask_simMap_self ga defaultThreshold (by unfold defaultThreshold; norm_num)
  have hex := extractRegions_empty_mask (simMap ga ga) defaultThreshold
    defaultMinArea defaultTopN hmask
  refine ⟨_, compare_ok_eq a a defaultThreshold defaultMinArea defaultTopN
    ga ga hn, ?_, ?_, ?_, ?_⟩
  · exact similarityPercent_self ga (hgw ▸ h.1) (hgh ▸ h.2.1)
  · exact hex.1
  · exact hex.2.2
  · exact hex.2.1

/-- C4: comparing any valid image with itself yields similarityPercent
exactly 100 and an empty region list; in particular two identical
solid-color 100-by-100 images produce percent 100 and no regions. -/
theorem claim_C4_identity (a : Image) (h : a.wellFormed) :
    (∃ r : ComparisonReport,
      compareImages a a defaultThreshold defaultMinArea defaultTopN = .ok r ∧
      r.similarity_percent = 100 ∧ r.changes = [] ∧ r.num_changes = 0 ∧
      r.total_changed_area = 0) ∧
    (∃ r : ComparisonReport,
      compareImages solid100 solid100 defaultThreshold defaultMinArea
        defaultTopN = .ok r ∧
      r.similarity_percent = 100 ∧ r.changes = []) := by
  refine ⟨identity_ok a h, ?_⟩
  obtain ⟨r, h1, h2, h3, -, -⟩ := identity_ok solid100 (by decide)
  exact ⟨r, h1, h2, h3⟩

/-- Witness for C4 at a concrete well-formed one-pixel image. -/
theorem claim_C4_identity_witness :
    ∃ r : ComparisonReport,
      compareImages { width := 1, height := 1, channels := 3, data := [[[0, 0, 0]]] }
          { width := 1, height := 1, channels := 3, data := [[[0, 0, 0]]] }
          defaultThreshold defaultMinArea defaultTopN = .ok r ∧
      r.similarity_percent = 100 ∧ r.changes = [] ∧ r.num_changes = 0 ∧
      r.total_changed_area = 0 :=
  (claim_C4_identity
    { width := 1, height := 1, channels := 3, data := [[[0, 0, 0]]] }
    (by decide)).1

/-! Claim C5: region ordering and truncation. -/

/-- C5: the reported regions are sorted by pixel-area descending with ties
broken by y then x ascending, the report holds at most topN regions
(at most 10 under the default), and the returned ChangeMask is always the
full unfiltered mask — truncation touches only the reported list, never the
mask or the untruncated totals. -/
theorem claim_C5_region_ordering (m : QGrid) (t : ℚ) (mA n : Nat) :
    List.Sorted regionLE (extractRegions m t mA n).regions ∧
    (extractRegions m t mA n).regions.length ≤ n ∧
    (extractRegions m t mA defaultTopN).regions.length ≤ 10 ∧
    (∀ n2 : Nat, (extractRegions m t mA n2).mask = changeMask m t ∧
      (extractRegions m t mA n2).totalChangedArea =
        (extractRegions m t mA n).totalChangedArea ∧
      (extractRegions m t mA n2).numRegions =
        (extractRegions m t mA n).numRegions) := by
  refine ⟨sorted_extract_regions m t mA n, ?_, ?_, fun n2 => ⟨rfl, rfl, rfl⟩⟩
  · show (List.take n _).length ≤ n
    rw [List.length_take]
    exact inf_le_left
  · show (List.take defaultTopN _).length ≤ 10
    rw [List.length_take]
    exact inf_le_left

/-! Connected-component infrastructure shared by the bounding-box and
threshold-monotonicity results. -/

/-- 8-connectivity is symmetric. -/
theorem adjacent_symm {p q : Pos} (h : adjacent p q) : adjacent q p :=
  ⟨h.1.symm, h.2.2.1, h.2.1, h.2.2.2.2, h.2.2.2.1⟩

/-- One growth step never loses pixels. -/
theorem growStep_inflationary (mask S : Finset Pos) : S ⊆ growStep mask S :=
  Finset.subset_union_left

/-- One growth step only adds masked pixels. -/
theorem growStep_subset_union (mask S : Finset Pos) :
    growStep mask S ⊆ S ∪ mask := by
  unfold growStep
  exact Finset.union_subset_union Finset.Subset.rfl (Finset.filter_subset _ _)

/-- Growth is monotone in the current set. -/
theorem growStep_mono_right (mask : Finset Pos) {S T : Finset Pos}
    (h : S ⊆ T) : growStep mask S ⊆ growStep mask T := by
  unfold growStep
  refine Finset.union_subset_union h fun q hq => ?_
  rw [Finset.mem_filter] at hq ⊢
  obtain ⟨hqm, r, hrS, hadj⟩ := hq
  exact ⟨hqm, r, h hrS, hadj⟩

/-- Growth is monotone in the mask. -/
theorem growStep_mono_left {mask1 mask2 : Finset Pos} (h : mask2 ⊆ mask1)
    (S : Finset Pos) : growStep mask2 S ⊆ growStep mask1 S := by
  unfold growStep
  refine Finset.union_subset_union Finset.Subset.rfl fun q hq => ?_
  rw [Finset.mem_filter] at hq ⊢
  exact ⟨h hq.1, hq.2⟩

/-- Iterated growth is monotone in the start set. -/
theorem iter_growStep_mono_right (mask : Finset Pos) (k : Nat)
    {S T : Finset Pos} (h : S ⊆ T) :
    (growStep mask)^[k] S ⊆ (growStep mask)^[k] T := by
  induction k generalizing S T with
  | zero => exact h
  | succ k ih =>
    rw [Function.iterate_succ_apply, Function.iterate_succ_apply]
    exact ih (growStep_mono_right mask h)

/-- Iterated growth is monotone in the fuel. -/
theorem iter_growStep_fuel_mono (mask : Finset Pos) {j k : Nat} (h : j ≤ k)
    (S : Finset Pos) : (growStep mask)^[j] S ⊆ (growStep mask)^[k] S := by
  induction k, h using Nat.le_induction with
  | base => exact Finset.Subset.rfl
  | succ k hk ih =>
    refine subset_trans ih ?_
    rw [Function.iterate_succ_apply']
    exact growStep_inflationary _ _

/-- Iterated growth is monotone in the mask. -/
theorem iter_growStep_mask_mono {mask1 mask2 : Finset Pos} (h : mask2 ⊆ mask1)
    (k : Nat) (S : Finset Pos) :
    (growStep mask2)^[k] S ⊆ (growStep mask1)^[k] S := by
  induction k generalizing S with
  | zero => exact Finset.Subset.rfl
  | succ k ih =>
    rw [Function.iterate_succ_apply, Function.iterate_succ_apply]
    exact subset_trans (ih (growStep mask2 S))
      (iter_growStep_mono_right mask1 k (growStep_mono_left h S))

/-- Iterated growth stays inside any superset of the start set and mask. -/
theorem iter_growStep_subset {mask S A : Finset Pos} (hS : S ⊆ A)
    (hm : mask ⊆ A) (k : Nat) : (growStep mask)^[k] S ⊆ A := by
  induction k generalizing S with
  | zero => exact hS
  | succ k ih =>
    rw [Function.iterate_succ_apply]
    exact ih (subset_trans (growStep_subset_union mask S)
      (Finset.union_subset hS hm))

/-- The seed belongs to its component. -/
theorem component_mem_self (mask : Finset Pos) (p : Pos) :
    p ∈ component mask p :=
  iter_growStep_fuel_mono mask (Nat.zero_le mask.card) {p}
    (Finset.mem_singleton_self p)

/-- Components of masked seeds stay inside the mask. -/
theorem component_subset {mask : Finset Pos} {p : Pos} (hp : p ∈ mask) :
    component mask p ⊆ mask :=
  iter_growStep_subset (Finset.singleton_subset_iff.mpr hp)
    Finset.Subset.rfl _

/-- Components grow when the mask grows. -/
theorem component_mono {mask1 mask2 : Finset Pos} (h : mask2 ⊆ mask1)
    (p : Pos) : component mask2 p ⊆ component mask1 p :=
  calc (growStep mask2)^[mask2.card] {p}
      ⊆ (growStep mask2)^[mask1.card] {p} :=
        iter_growStep_fuel_mono mask2 (Finset.card_le_card h) {p}
    _ ⊆ (growStep mask1)^[mask1.card] {p} := iter_growStep_mask_mono h _ {p}

/-- While growth keeps strictly adding pixels, the cardinality grows by at
least one per step. -/
theorem card_iterate_of_strict (mask S : Finset Pos) (k : Nat)
    (h : ∀ j < k, (growStep mask)^[j+1] S ≠ (growStep mask)^[j] S) :
    S.card + k ≤ ((growStep mask)^[k] S).card := by
  induction k with
  | zero => simp
  | succ k ih =>
    have hk := ih fun j hj => h j (Nat.lt_succ_of_lt hj)
    have hstrict : (growStep mask)^[k] S ⊂ (growStep mask)^[k+1] S := by
      rw [Finset.ssubset_iff_subset_ne]
      constructor
      · rw [Function.iterate_succ_apply']
        exact growStep_inflationary _ _
      · exact fun he => h k (Nat.lt_succ_self k) he.symm
    have := Finset.card_lt_card hstrict
    omega

/-- The worklist expansion has stabilized after mask.card steps: the
component of a masked seed is a fixpoint of growth. -/
theorem component_fixed {mask : Finset Pos} {p : Pos} (hp : p ∈ mask) :
    growStep mask (component mask p) = component mask p := by
  by_contra hne
  have hstrict : ∀ j < mask.card + 1,
      (growStep mask)^[j+1] {p} ≠ (growStep mask)^[j] {p} := by
    intro j hj heq
    have hfix : ∀ i : Nat,
        (growStep mask)^[j + i] {p} = (growStep mask)^[j] {p} := by
      intro i
      induction i with
      | zero => rfl
      | succ i ih =>
        have hji : j + (i + 1) = (j + i) + 1 := by omega
        rw [hji, Function.iterate_succ_apply', ih]
        exact (Function.iterate_succ_apply' (growStep mask) j {p}).symm.trans heq
    apply hne
    have hcomp : component mask p = (growStep mask)^[j] {p} := by
      show (growStep mask)^[mask.card] {p} = _
      have hN : mask.card = j + (mask.card - j) := by omega
      rw [hN]
      exact hfix (mask.card - j)
    rw [hcomp]
    exact (Function.iterate_succ_apply' (growStep mask) j {p}).symm.trans heq
  have hcard := card_iterate_of_strict mask {p} (mask.card + 1) hstrict
  have hsub : (growStep mask)^[mask.card + 1] {p} ⊆ mask :=
    iter_growStep_subset (Finset.singleton_subset_iff.mpr hp)
      Finset.Subset.rfl _
  have hle := Finset.card_le_card hsub
  rw [Finset.card_singleton] at hcard
  omega

/-- Whatever lies in a component generates no more than that component. -/
theorem component_closed {mask : Finset Pos} {p q : Pos} (hp : p ∈ mask)
    (hq : q ∈ component mask p) : component mask q ⊆ component mask p := by
  have key : ∀ k, (growStep mask)^[k] {q} ⊆ component mask p := by
    intro k
    induction k with
    | zero => simpa using hq
    | succ k ih =>
      rw [Function.iterate_succ_apply']
      calc growStep mask ((growStep mask)^[k] {q})
          ⊆ growStep mask (component mask p) := growStep_mono_right mask ih
        _ = component mask p := component_fixed hp
  exact key mask.card

/-- Reachability through a symmetric adjacency is symmetric, step by step. -/
theorem iter_growStep_symm (mask : Finset Pos) {p : Pos} (hp : p ∈ mask) :
    ∀ k q, q ∈ (growStep mask)^[k] {p} → p ∈ (growStep mask)^[k] {q} := by
  intro k
  induction k with
  | zero =>
    intro q hq
    rw [Function.iterate_zero_apply] at hq ⊢
    rw [Finset.mem_singleton] at hq
    rw [hq]
    exact Finset.mem_singleton_self p
  | succ k ih =>
    intro q hq
    rw [Function.iterate_succ_apply'] at hq
    unfold growStep at hq
    rw [Finset.mem_union] at hq
    cases hq with
    | inl hq2 =>
      exact iter_growStep_fuel_mono mask (Nat.le_succ k) {q} (ih q hq2)
    | inr hq2 =>
      rw [Finset.mem_filter] at hq2
      obtain ⟨hqm, r, hr, hadj⟩ := hq2
      have hrmask : r ∈ mask :=
        iter_growStep_subset (Finset.singleton_subset_iff.mpr hp)
          Finset.Subset.rfl k hr
      have hrq : r ∈ growStep mask {q} := by
        unfold growStep
        rw [Finset.mem_union, Finset.mem_filter]
        exact .inr ⟨hrmask, q, Finset.mem_singleton_self q, adjacent_symm hadj⟩
      have hsub : (growStep mask)^[k] {r} ⊆
          (growStep mask)^[k] (growStep mask {q}) :=
        iter_growStep_mono_right mask k (Finset.singleton_subset_iff.mpr hrq)
      rw [← Function.iterate_succ_apply] at hsub
      exact hsub (ih r hr)

/-- Membership in a component is symmetric between seeds. -/
theorem component_symm {mask : Finset Pos} {p q : Pos} (hp : p ∈ mask)
    (hq : q ∈ component mask p) : p ∈ component mask q :=
  iter_growStep_symm mask hp mask.card q hq

/-- Any pixel of a component seeds the very same component. -/
theorem component_eq {mask : Finset Pos} {p q : Pos} (hp : p ∈ mask)
    (hq : q ∈ component mask p) : component mask q = component mask p := by
  have hqm : q ∈ mask := component_subset hp hq
  exact subset_antisymm (component_closed hp hq)
    (component_closed hqm (component_symm hp hq))

/-! Claim C7: bounding-box validity. -/

/-- The stored maximum of a nonempty set of naturals is a member and an
upper bound. -/
theorem max_getD_spec {s : Finset ℕ} (hs : s.Nonempty) :
    s.max.getD 0 ∈ s ∧ ∀ a ∈ s, a ≤ s.max.getD 0 := by
  have hcoe : s.max = ((s.max' hs : ℕ) : WithBot ℕ) := (Finset.coe_max' hs).symm
  rw [hcoe]
  exact ⟨Finset.max'_mem s hs, fun a ha => Finset.le_max' s a ha⟩

/-- The stored minimum of a nonempty set of naturals is a member and a
lower bound. -/
theorem min_getD_spec {s : Finset ℕ} (hs : s.Nonempty) :
    s.min.getD 0 ∈ s ∧ ∀ a ∈ s, s.min.getD 0 ≤ a := by
  have hcoe : s.min = ((s.min' hs : ℕ) : WithTop ℕ) := (Finset.coe_min' hs).symm
  rw [hcoe]
  exact ⟨Finset.min'_mem s hs, fun a ha => Finset.min'_le s a ha⟩

/-- The bounding box of a nonempty component inside the grid is valid: it
stays inside the image and its pixel-area is at most the box area. -/
theorem regionOfComp_valid {w h : Nat} {C : Finset Pos} (hne : C.Nonempty)
    (hsub : C ⊆ gridPts w h) :
    (regionOfComp C).x + (regionOfComp C).width ≤ w ∧
    (regionOfComp C).y + (regionOfComp C).height ≤ h ∧
    (regionOfComp C).area ≤ (regionOfComp C).width * (regionOfComp C).height := by
  obtain ⟨q0, hq0⟩ := hne
  have hxne : (C.image Prod.fst).Nonempty := ⟨q0.1, Finset.mem_image_of_mem _ hq0⟩
  have hyne : (C.image Prod.snd).Nonempty := ⟨q0.2, Finset.mem_image_of_mem _ hq0⟩
  obtain ⟨hxM, hxle⟩ := max_getD_spec hxne
  obtain ⟨hyM, hyle⟩ := max_getD_spec hyne
  obtain ⟨hxm, hxge⟩ := min_getD_spec hxne
  obtain ⟨hym, hyge⟩ := min_getD_spec hyne
  have hgrid : ∀ q ∈ C, q.1 < w ∧ q.2 < h := by
    intro q hq
    have := hsub hq
    unfold gridPts at this
    rw [Finset.mem_product, Finset.mem_range, Finset.mem_range] at this
    exact this
  have hmaxX_lt : maxX C < w := by
    rw [Finset.mem_image] at hxM
    obtain ⟨q, hq, hqx⟩ := hxM
    rw [show maxX C = (C.image Prod.fst).max.getD 0 from rfl, ← hqx]
    exact (hgrid q hq).1
  have hmaxY_lt : maxY C < h := by
    rw [Finset.mem_image] at hyM
    obtain ⟨q, hq, hqy⟩ := hyM
    rw [show maxY C = (C.image Prod.snd).max.getD 0 from rfl, ← hqy]
    exact (hgrid q hq).2
  have hminX_le : minX C ≤ maxX C :=
    le_trans (hxge q0.1 (Finset.mem_image_of_mem _ hq0))
      (hxle q0.1 (Finset.mem_image_of_mem _ hq0))
  have hminY_le : minY C ≤ maxY C :=
    le_trans (hyge q0.2 (Finset.mem_image_of_mem _ hq0))
      (hyle q0.2 (Finset.mem_image_of_mem _ hq0))
  refine ⟨?_, ?_, ?_⟩
  · show minX C + (maxX C + 1 - minX C) ≤ w
    omega
  · show minY C + (maxY C + 1 - minY C) ≤ h
    omega
  · show C.card ≤ (maxX C + 1 - minX C) * (maxY C + 1 - minY C)
    have hbox : C ⊆ Finset.Ico (minX C) (maxX C + 1) ×ˢ
        Finset.Ico (minY C) (maxY C + 1) := by
      intro q hq
      rw [Finset.mem_product, Finset.mem_Ico, Finset.mem_Ico]
      have h1 : minX C ≤ q.1 := hxge q.1 (Finset.mem_image_of_mem _ hq)
      have h2 : q.1 ≤ maxX C := hxle q.1 (Finset.mem_image_of_mem _ hq)
      have h3 : minY C ≤ q.2 := hyge q.2 (Finset.mem_image_of_mem _ hq)
      have h4 : q.2 ≤ maxY C := hyle q.2 (Finset.mem_image_of_mem _ hq)
      exact ⟨⟨h1, by omega⟩, ⟨h3, by omega⟩⟩
    calc C.card ≤ (Finset.Ico (minX C) (maxX C + 1) ×ˢ
        Finset.Ico (minY C) (maxY C + 1)).card := Finset.card_le_card hbox
      _ = (maxX C + 1 - minX C) * (maxY C + 1 - minY C) := by
          rw [Finset.card_product, Nat.card_Ico, Nat.card_Ico]

/-- Every region of the report arises as the bounding box of the component
of some masked pixel. -/
theorem region_from_extract {m : QGrid} {t : ℚ} {mA n : Nat} {r : Region}
    (hr : r ∈ (extractRegions m t mA n).regions) :
    ∃ p ∈ changeMask m t, r = regionOfComp (component (changeMask m t) p) := by
  have hr1 : r ∈ List.take n (List.insertionSort regionLE
      ((survivorList m.width m.height (changeMask m t) mA).map regionOfComp)) := hr
  have hr2 : r ∈ (survivorList m.width m.height (changeMask m t) mA).map
      regionOfComp :=
    (List.perm_insertionSort regionLE _).mem_iff.mp (List.take_subset n _ hr1)
  rw [List.mem_map] at hr2
  obtain ⟨C, hC, rfl⟩ := hr2
  unfold survivorList at hC
  rw [List.mem_filter] at hC
  have hCl := hC.1
  unfold compList at hCl
  rw [List.mem_dedup, List.mem_map] at hCl
  obtain ⟨p, hp, rfl⟩ := hCl
  unfold compSeeds at hp
  rw [List.mem_filter] at hp
  exact ⟨p, by simpa using hp.2, rfl⟩

/-- C7: every region in any report satisfies 0 ≤ x, 0 ≤ y,
x + width ≤ image width, y + height ≤ image height, and its area — the
count of masked pixels of its component, not the box area — is at most
width times height. -/
theorem claim_C7_bbox_validity (m : QGrid) (t : ℚ) (mA n : Nat) (r : Region)
    (hr : r ∈ (extractRegions m t mA n).regions) :
    0 ≤ r.x ∧ 0 ≤ r.y ∧ r.x + r.width ≤ m.width ∧
    r.y + r.height ≤ m.height ∧ r.area ≤ r.width * r.height ∧
    ∃ p ∈ changeMask m t, r.area = (component (changeMask m t) p).card := by
  obtain ⟨p, hp, rfl⟩ := region_from_extract hr
  have hne : (component (changeMask m t) p).Nonempty :=
    ⟨p, component_mem_self _ _⟩
  have hsub : component (changeMask m t) p ⊆ gridPts m.width m.height :=
    subset_trans (component_subset hp) (Finset.filter_subset _ _)
  have hv := regionOfComp_valid hne hsub
  exact ⟨Nat.zero_le _, Nat.zero_le _, hv.1, hv.2.1, hv.2.2, p, hp, rfl⟩

/-- Witness for C7 on the concrete region extracted from sampleMap. -/
theorem claim_C7_bbox_validity_witness :
    0 ≤ (Region.mk 0 0 3 2 6).x ∧ 0 ≤ (Region.mk 0 0 3 2 6).y ∧
    (Region.mk 0 0 3 2 6).x + (Region.mk 0 0 3 2 6).width ≤ sampleMap.width ∧
    (Region.mk 0 0 3 2 6).y + (Region.mk 0 0 3 2 6).height ≤ sampleMap.height ∧
    (Region.mk 0 0 3 2 6).area ≤
      (Region.mk 0 0 3 2 6).width * (Region.mk 0 0 3 2 6).height ∧
    ∃ p ∈ changeMask sampleMap defaultThreshold,
      (Region.mk 0 0 3 2 6).area =
        (component (changeMask sampleMap defaultThreshold) p).card :=
  claim_C7_bbox_validity sampleMap defaultThreshold defaultMinArea defaultTopN
    (Region.mk 0 0 3 2 6) (by decide)

/-! Claim C3: thresholding monotonicity. -/

/-- Raising the threshold only removes pixels from the ChangeMask: the
spec marks a pixel changed when its dissimilarity strictly exceeds the
threshold. -/
theorem changeMask_antitone (m : QGrid) {t1 t2 : ℚ} (h : t1 ≤ t2) :
    changeMask m t2 ⊆ changeMask m t1 := by
  unfold changeMask
  intro p hp
  rw [Finset.mem_filter] at hp ⊢
  exact ⟨hp.1, lt_of_le_of_lt h hp.2⟩

/-- The ChangeMask lives inside the grid. -/
theorem changeMask_subset_grid (m : QGrid) (t : ℚ) :
    changeMask m t ⊆ gridPts m.width m.height :=
  Finset.filter_subset _ _

/-- The scan list enumerates exactly the grid coordinates. -/
theorem mem_gridList {w h : Nat} {p : Pos} :
    p ∈ gridList w h ↔ p.1 < w ∧ p.2 < h := by
  unfold gridList
  rw [List.mem_flatMap]
  constructor
  · rintro ⟨y, hy, hp⟩
    rw [List.mem_map] at hp
    obtain ⟨x, hx, rfl⟩ := hp
    exact ⟨by simpa using hx, by simpa using hy⟩
  · rintro ⟨h1, h2⟩
    refine ⟨p.2, by simpa using h2, ?_⟩
    rw [List.mem_map]
    exact ⟨p.1, by simpa using h1, rfl⟩

/-- Structure of compList members: each is the component of a masked seed. -/
theorem compList_mem_struct {w h : Nat} {mask : Finset Pos}
    {C : Finset Pos} (hC : C ∈ compList w h mask) :
    ∃ p ∈ mask, C = component mask p := by
  unfold compList at hC
  rw [List.mem_dedup, List.mem_map] at hC
  obtain ⟨p, hp, rfl⟩ := hC
  unfold compSeeds at hp
  rw [List.mem_filter] at hp
  exact ⟨p, by simpa using hp.2, rfl⟩

/-- Completeness of compList: the component of every masked pixel occurs. -/
theorem compList_complete {w h : Nat} {mask : Finset Pos}
    (hsub : mask ⊆ gridPts w h) {p : Pos} (hp : p ∈ mask) :
    component mask p ∈ compList w h mask := by
  unfold compList
  rw [List.mem_dedup, List.mem_map]
  refine ⟨p, ?_, rfl⟩
  unfold compSeeds
  rw [List.mem_filter]
  have hg := hsub hp
  unfold gridPts at hg
  rw [Finset.mem_product, Finset.mem_range, Finset.mem_range] at hg
  exact ⟨mem_gridList.mpr hg, by simpa using hp⟩

/-- Two different components never share a pixel. -/
theorem component_disjoint {mask : Finset Pos} {p q : Pos} (hp : p ∈ mask)
    (hq : q ∈ mask) (hne : component mask p ≠ component mask q) :
    Disjoint (component mask p) (component mask q) := by
  rw [Finset.disjoint_left]
  intro x hxp hxq
  exact hne ((component_eq hp hxp).symm.trans (component_eq hq hxq))

/-- The listed components are pairwise disjoint. -/
theorem compList_pairwise_disjoint (w h : Nat) (mask : Finset Pos) :
    (compList w h mask).Pairwise Disjoint := by
  have hnd : (compList w h mask).Nodup := List.nodup_dedup _
  refine List.Pairwise.imp_of_mem ?_ hnd
  intro C D hCm hDm hne
  obtain ⟨p, hp, rfl⟩ := compList_mem_struct hCm
  obtain ⟨q, hq, rfl⟩ := compList_mem_struct hDm
  exact component_disjoint hp hq hne

/-- Membership in the union of a list of sets. -/
theorem mem_unionList {L : List (Finset Pos)} {x : Pos} :
    x ∈ unionList L ↔ ∃ C ∈ L, x ∈ C := by
  induction L with
  | nil => simp [unionList]
  | cons C L ih =>
    unfold unionList at ih ⊢
    rw [List.foldr_cons, Finset.mem_union, ih]
    simp

/-- A set disjoint from every member is disjoint from the union. -/
theorem disjoint_unionList {C : Finset Pos} {L : List (Finset Pos)}
    (h : ∀ D ∈ L, Disjoint C D) : Disjoint C (unionList L) := by
  induction L with
  | nil => simp [unionList]
  | cons D L ih =>
    unfold unionList at ih ⊢
    rw [List.foldr_cons, Finset.disjoint_union_right]
    exact ⟨h D (List.mem_cons_self D L),
      ih fun E hE => h E (List.mem_cons_of_mem D hE)⟩

/-- For pairwise disjoint sets the areas add up to the area of the union. -/
theorem card_unionList {L : List (Finset Pos)} (h : L.Pairwise Disjoint) :
    (L.map Finset.card).sum = (unionList L).card := by
  induction L with
  | nil => simp [unionList]
  | cons C L ih =>
    rw [List.map_cons, List.sum_cons]
    show C.card + (L.map Finset.card).sum = (C ∪ unionList L).card
    rw [List.pairwise_cons] at h
    rw [ih h.2, Finset.card_union_of_disjoint (disjoint_unionList h.1)]

/-- The union of the surviving components is exactly the set of changed
pixels whose component passes the minimum-area floor. -/
theorem unionList_survivors {w h : Nat} {mask : Finset Pos}
    (hsub : mask ⊆ gridPts w h) (mA : Nat) :
    unionList (survivorList w h mask mA) = contrib mask mA := by
  ext x
  rw [mem_unionList]
  unfold contrib
  rw [Finset.mem_filter]
  constructor
  · rintro ⟨C, hC, hxC⟩
    unfold survivorList at hC
    rw [List.mem_filter] at hC
    obtain ⟨hCl, hcard⟩ := hC
    obtain ⟨p, hp, rfl⟩ := compList_mem_struct hCl
    have hxm : x ∈ mask := component_subset hp hxC
    have hcx : component mask x = component mask p := component_eq hp hxC
    refine ⟨hxm, ?_⟩
    rw [hcx]
    exact of_decide_eq_true hcard
  · rintro ⟨hxm, hcard⟩
    refine ⟨component mask x, ?_, component_mem_self mask x⟩
    unfold survivorList
    rw [List.mem_filter]
    exact ⟨compList_complete hsub hxm, by simpa using hcard⟩

/-- The surviving components stay pairwise disjoint. -/
theorem survivorList_pairwise_disjoint (w h : Nat) (mask : Finset Pos)
    (mA : Nat) : (survivorList w h mask mA).Pairwise Disjoint :=
  List.Pairwise.sublist (List.filter_sublist _)
    (compList_pairwise_disjoint w h mask)

/-- The reported total changed area counts exactly the changed pixels whose
component survives the floor. -/
theorem total_eq_contrib (m : QGrid) (t : ℚ) (mA n : Nat) :
    (extractRegions m t mA n).totalChangedArea =
      (contrib (changeMask m t) mA).card := by
  show ((survivorList m.width m.height (changeMask m t) mA).map
    Finset.card).sum = _
  rw [card_unionList
    (survivorList_pairwise_disjoint m.width m.height (changeMask m t) mA)]
  rw [unionList_survivors (changeMask_subset_grid m t) mA]

/-- Shrinking the mask can only shrink the set of surviving pixels. -/
theorem contrib_antitone {mask1 mask2 : Finset Pos} (h : mask2 ⊆ mask1)
    (mA : Nat) : contrib mask2 mA ⊆ contrib mask1 mA := by
  intro p hp
  unfold contrib at hp ⊢
  rw [Finset.mem_filter] at hp ⊢
  refine ⟨h hp.1, ?_⟩
  exact le_trans hp.2 (Finset.card_le_card (component_mono h p))

/-- C3 counterexample: on the concrete six-pixel map, raising the threshold
from the default 0.3 to 0.6 strictly decreases both the number of detected
regions (one region to none) and totalChangedArea (six to zero), refuting
"increasing the threshold never yields fewer regions nor a smaller
totalChangedArea". -/
theorem claim_C3_counterexample :
    defaultThreshold ≤ 6/10 ∧
    (extractRegions sampleMap (6/10) defaultMinArea defaultTopN).numRegions <
      (extractRegions sampleMap defaultThreshold defaultMinArea
        defaultTopN).numRegions ∧
    (extractRegions sampleMap (6/10) defaultMinArea
        defaultTopN).totalChangedArea <
      (extractRegions sampleMap defaultThreshold defaultMinArea
        defaultTopN).totalChangedArea := by
  refine ⟨by unfold defaultThreshold; norm_num, by decide, by decide⟩

/-- C3 amended: the spec defines a pixel as changed when its dissimilarity
strictly exceeds the threshold, so increasing the threshold is less — not
more — sensitive: for t1 ≤ t2 the extraction at t2 never yields a larger
totalChangedArea than at t1, for every SimilarityMap, minimum-area floor and
topN; no monotonicity in either direction holds for the number of regions,
which can also increase when a higher threshold splits one region. -/
theorem claim_C3_area_antitone (m : QGrid) (t1 t2 : ℚ) (mA n : Nat)
    (h : t1 ≤ t2) :
    ((extractRegions m t2 mA n).totalChangedArea ≤
      (extractRegions m t1 mA n).totalChangedArea) ∧
    defaultThreshold ≤ 36/100 ∧
    (extractRegions splitMap defaultThreshold 1 10).numRegions <
      (extractRegions splitMap (36/100) 1 10).numRegions := by
  refine ⟨?_, by unfold defaultThreshold; norm_num, by decide⟩
  rw [total_eq_contrib, total_eq_contrib]
  exact Finset.card_le_card (contrib_antitone (changeMask_antitone m h) mA)

/-- Witness for C3 amended at the concrete thresholds 0.3 and 0.6. -/
theorem claim_C3_area_antitone_witness :
    (extractRegions sampleMap (6/10) defaultMinArea
        defaultTopN).totalChangedArea ≤
      (extractRegions sampleMap defaultThreshold defaultMinArea
        defaultTopN).totalChangedArea :=
  (claim_C3_area_antitone sampleMap defaultThreshold (6/10) defaultMinArea
    defaultTopN (by unfold defaultThreshold; norm_num)).1

end CodexEterna
